import Mathlib

/-!
Shallow embedding of the alshival-nodejs SDK core (src/client.js and the
logger module): level vocabulary coercion, resource-reference URL parsing,
the client configuration store with its merge-style configure entry point,
and the per-handler cloud forwarding decision with its transport call shape.

Modelling conventions:
* JavaScript null/undefined-able string fields become Option String
  (none = null); "supplied or not" patch fields get an extra Option layer.
* JS numbers are modelled as rationals (finite doubles) where fractional
  values matter, and as Int where the code only ever holds integers.
* Throwing code is modelled with Except String (the error message).
* String primitives (trim, toUpperCase, split, URI component codecs) are
  reimplemented over character lists so that every definition evaluates
  inside the kernel; they agree with the JS primitives on the ASCII
  fragment all claims quantify over.
* The WHATWG URL parser is modelled for hierarchical scheme://host/path
  URLs without userinfo or ports, and without the normalisations that
  rewrite hosts or paths (dot-segment removal, percent-encoding of path
  characters, IPv4 and punycode host forms); all claims stay inside the
  fragment these normalisations leave unchanged.
-/

namespace Alshival

instance {ε α : Type} [DecidableEq ε] [DecidableEq α] : DecidableEq (Except ε α) := fun x y =>
  match x, y with
  | .ok a, .ok b =>
    if h : a = b then isTrue (by rw [h]) else isFalse (fun hh => h (Except.ok.inj hh))
  | .error a, .error b =>
    if h : a = b then isTrue (by rw [h]) else isFalse (fun hh => h (Except.error.inj hh))
  | .ok _, .error _ => isFalse (fun hh => Except.noConfusion hh)
  | .error _, .ok _ => isFalse (fun hh => Except.noConfusion hh)

/-- ASCII uppercase of one character (JS toUpperCase on the ASCII range). -/
def asciiUpper (c : Char) : Char :=
  if 97 ≤ c.toNat ∧ c.toNat ≤ 122 then Char.ofNat (c.toNat - 32) else c

/-- ASCII lowercase of one character (JS toLowerCase on the ASCII range). -/
def asciiLower (c : Char) : Char :=
  if 65 ≤ c.toNat ∧ c.toNat ≤ 90 then Char.ofNat (c.toNat + 32) else c

/-- JS String.prototype.trim, on the ASCII whitespace fragment. -/
def jsTrim (s : String) : String :=
  String.mk (((s.data.dropWhile Char.isWhitespace).reverse.dropWhile Char.isWhitespace).reverse)

/-- JS String.prototype.toUpperCase, on the ASCII fragment. -/
def jsToUpper (s : String) : String :=
  String.mk (s.data.map asciiUpper)

/-- JS String.prototype.toLowerCase, on the ASCII fragment. -/
def jsToLower (s : String) : String :=
  String.mk (s.data.map asciiLower)

/-- JavaScript primitive value fed to the level-coercion functions
(finite numbers only; non-finite doubles are outside the claims). -/
inductive JsValue where
  | null : JsValue
  | bool : Bool → JsValue
  | num  : ℚ → JsValue
  | str  : String → JsValue
deriving DecidableEq

/-- JS Math.trunc on a finite number: truncation toward zero. -/
def jsTrunc (q : ℚ) : Int :=
  if 0 ≤ q then ⌊q⌋ else ⌈q⌉

/-- Source constant ALERT_LEVEL = 45. -/
def ALERT_LEVEL : Int := 45

/-- Source table LEVEL_NAME_TO_NO (local level vocabulary), as an
association list: JS object own-property lookup. -/
def LEVEL_NAME_TO_NO : List (String × Int) :=
  [("ALERT", ALERT_LEVEL), ("ALERTS", ALERT_LEVEL), ("CRITICAL", 50),
   ("FATAL", 50), ("ERROR", 40), ("WARNING", 30), ("WARN", 30),
   ("INFO", 20), ("DEBUG", 10), ("NOTSET", 0)]

/-- Source table CLOUD_LEVEL_NAME_TO_NO (restricted cloud vocabulary). -/
def CLOUD_LEVEL_NAME_TO_NO : List (String × Int) :=
  [("ALERT", ALERT_LEVEL), ("ERROR", 40), ("WARNING", 30),
   ("INFO", 20), ("DEBUG", 10)]

/-- Source set DISABLED_LEVEL_VALUES. -/
def DISABLED_LEVEL_VALUES : List String :=
  ["NONE", "NULL", "FALSE", "OFF", "DISABLE", "DISABLED"]

/-- client.js coerceLevel: null and false map to disabled (none), finite
numbers truncate, strings are trim-uppercased and checked against the
disable set then the local table, true and unknown strings throw. -/
def coerceLevel : JsValue → Except String (Option Int)
  | .null => .ok none
  | .bool b => if b then .error "Invalid log level: true" else .ok none
  | .num q => .ok (some (jsTrunc q))
  | .str s =>
    let name := jsToUpper (jsTrim s)
    if name ∈ DISABLED_LEVEL_VALUES then .ok none
    else
      match LEVEL_NAME_TO_NO.lookup name with
      | some n => .ok (some n)
      | none => .error ("Invalid log level: " ++ s)

/-- client.js coerceCloudLevel: every non-string input throws; NONE (any
case) disables; otherwise only the restricted cloud table is accepted. -/
def coerceCloudLevel : JsValue → Except String (Option Int)
  | .str s =>
    let name := jsToUpper (jsTrim s)
    if name = "NONE" then .ok none
    else
      match CLOUD_LEVEL_NAME_TO_NO.lookup name with
      | some n => .ok (some n)
      | none => .error ("Invalid log level: " ++ s)
  | .null => .error "Invalid log level: null"
  | .bool b => .error ("Invalid log level: " ++ (if b then "true" else "false"))
  | .num _ => .error "Invalid log level: number"

/-- Value of a hex digit character, as used by the URI component codecs. -/
def hexVal (c : Char) : Option Nat :=
  if '0' ≤ c ∧ c ≤ '9' then some (c.toNat - 48)
  else if 'A' ≤ c ∧ c ≤ 'F' then some (c.toNat - 55)
  else if 'a' ≤ c ∧ c ≤ 'f' then some (c.toNat - 87)
  else none

/-- Uppercase hex digit for a value below 16. -/
def hexDigitU (n : Nat) : Char :=
  if n < 10 then Char.ofNat (48 + n) else Char.ofNat (55 + n)

/-- UTF-8 encoding of one code point, as a byte list. -/
def utf8Encode (c : Char) : List Nat :=
  let n := c.toNat
  if n < 0x80 then [n]
  else if n < 0x800 then [0xC0 + n / 64, 0x80 + n % 64]
  else if n < 0x10000 then [0xE0 + n / 4096, 0x80 + (n / 64) % 64, 0x80 + n % 64]
  else [0xF0 + n / 262144, 0x80 + (n / 4096) % 64, 0x80 + (n / 64) % 64, 0x80 + n % 64]

/-- Decode one UTF-8 code point from a leading byte and the remaining
bytes, rejecting overlong forms and surrogates as the JS URI decoder
does; yields the code point and the bytes left. -/
def utf8Step (b : Nat) (rest : List Nat) : Option (Nat × List Nat) :=
  if b < 0x80 then some (b, rest)
  else if b < 0xC2 then none
  else if b < 0xE0 then
    match rest with
    | b2 :: rest2 =>
      if 0x80 ≤ b2 ∧ b2 < 0xC0 then some ((b - 0xC0) * 64 + (b2 - 0x80), rest2) else none
    | [] => none
  else if b < 0xF0 then
    match rest with
    | b2 :: b3 :: rest3 =>
      if (0x80 ≤ b2 ∧ b2 < 0xC0) ∧ (0x80 ≤ b3 ∧ b3 < 0xC0) then
        let n := (b - 0xE0) * 4096 + (b2 - 0x80) * 64 + (b3 - 0x80)
        if 0x800 ≤ n ∧ ¬ (0xD800 ≤ n ∧ n ≤ 0xDFFF) then some (n, rest3) else none
      else none
    | _ => none
  else if b < 0xF5 then
    match rest with
    | b2 :: b3 :: b4 :: rest4 =>
      if (0x80 ≤ b2 ∧ b2 < 0xC0) ∧ (0x80 ≤ b3 ∧ b3 < 0xC0) ∧ (0x80 ≤ b4 ∧ b4 < 0xC0) then
        let n := (b - 0xF0) * 262144 + (b2 - 0x80) * 4096 + (b3 - 0x80) * 64 + (b4 - 0x80)
        if 0x10000 ≤ n ∧ n ≤ 0x10FFFF then some (n, rest4) else none
      else none
    | _ => none
  else none

/-- Strict UTF-8 decoding loop; the fuel argument (instantiated with the
byte count, an upper bound on the number of code points) only makes the
recursion structural and never runs out on the instantiations used. -/
def utf8DecodeAux : Nat → List Nat → Option (List Char)
  | _, [] => some []
  | 0, _ :: _ => none
  | fuel + 1, b :: rest =>
    match utf8Step b rest with
    | some (n, rest2) => (utf8DecodeAux fuel rest2).map (fun t => Char.ofNat n :: t)
    | none => none

/-- Strict UTF-8 decoding of a byte list (rejecting overlong forms and
surrogates, as the JS URI decoder does). -/
def utf8Decode (l : List Nat) : Option (List Char) :=
  utf8DecodeAux l.length l

/-- Percent-escape scanning for decodeURIComponent: escaped pairs become
raw bytes, every other character contributes its own UTF-8 bytes; a lone
or malformed escape fails (URIError). -/
def percentDecodeBytes : List Char → Option (List Nat)
  | [] => some []
  | c :: rest =>
    if c = '%' then
      match rest with
      | h1 :: h2 :: rest2 =>
        match hexVal h1, hexVal h2, percentDecodeBytes rest2 with
        | some d1, some d2, some tail => some ((d1 * 16 + d2) :: tail)
        | _, _, _ => none
      | _ => none
    else (percentDecodeBytes rest).map (fun t => utf8Encode c ++ t)

/-- JS decodeURIComponent; none models a thrown URIError. -/
def decodeURIComponentB (s : String) : Option String :=
  (percentDecodeBytes s.data).bind (fun bs => (utf8Decode bs).map String.mk)

/-- Membership in the encodeURIComponent unreserved set
A-Z a-z 0-9 - _ . ! ~ * apostrophe ( ). -/
def isUnreservedChar (c : Char) : Bool :=
  c.isAlphanum ∨ c = '-' ∨ c = '_' ∨ c = '.' ∨ c = '!' ∨ c = '~'
    ∨ c = '*' ∨ c = Char.ofNat 39 ∨ c = '(' ∨ c = ')'

/-- Percent-escape of one byte, uppercase hex. -/
def encodeByte (n : Nat) : List Char :=
  ['%', hexDigitU (n / 16), hexDigitU (n % 16)]

/-- JS encodeURIComponent. -/
def encodeURIComponentB (s : String) : String :=
  String.mk (s.data.foldr
    (fun c acc =>
      (if isUnreservedChar c then [c]
       else (utf8Encode c).foldr (fun b a => encodeByte b ++ a) []) ++ acc)
    [])

/-- Parsed URL fragment used by the source: protocol scheme (lowercased,
without the colon), host (lowercased, claims carry no port or userinfo)
and pathname (starts with a slash). -/
structure URLRec where
  scheme : String
  host : String
  pathname : String
deriving DecidableEq

/-- Scheme syntax: one letter then letters, digits, plus, minus, dot. -/
def schemeChars : List Char → Bool
  | [] => false
  | c :: rest => c.isAlpha ∧ rest.all (fun d => d.isAlphanum ∨ d = '+' ∨ d = '-' ∨ d = '.')

/-- Model of the WHATWG URL constructor on the hierarchical
scheme://host/path fragment: none models a thrown TypeError. The model
keeps host and path verbatim: it performs no dot-segment removal, no
percent-encoding of the path, and no IPv4/punycode host normalisation,
so it coincides with the real constructor only on inputs that those
normalisations leave unchanged (SafeHost hosts and dot-free SafeSeg
path segments); every universal claim stays inside that fragment. -/
def jsParseURL (raw : String) : Option URLRec :=
  let cs := raw.data
  let scheme := cs.takeWhile (fun c => c ≠ ':')
  match cs.drop scheme.length with
  | c1 :: c2 :: c3 :: tail =>
    if c1 = ':' ∧ c2 = '/' ∧ c3 = '/' ∧ schemeChars scheme then
      let auth := tail.takeWhile (fun c => c ≠ '/' ∧ c ≠ '?' ∧ c ≠ '#')
      if auth = [] then none
      else
        let path := (tail.drop auth.length).takeWhile (fun c => c ≠ '?' ∧ c ≠ '#')
        some { scheme := String.mk (scheme.map asciiLower),
               host := String.mk (auth.map asciiLower),
               pathname := if path = [] then "/" else String.mk path }
    else none
  | _ => none

/-- Split a character list at a separator character. -/
def splitOnChar (sep : Char) (l : List Char) : List (List Char) :=
  l.foldr
    (fun c acc =>
      match acc with
      | [] => [[c]]
      | cur :: rest => if c = sep then [] :: cur :: rest else (c :: cur) :: rest)
    [[]]

/-- pathname.split(slash).filter(Boolean): the non-empty path segments. -/
def pathSegments (p : String) : List String :=
  ((splitOnChar '/' p.data).map String.mk).filter (fun s => s ≠ "")

/-- Join segments with slashes. -/
def joinSlash : List String → String
  | [] => ""
  | [x] => x
  | x :: rest => x ++ "/" ++ joinSlash rest

/-- One-trailing-slash strip: the replace of a slash-at-end regex. -/
def stripTrailingSlash (s : String) : String :=
  match s.data.getLast? with
  | some c => if c = '/' then String.mk s.data.dropLast else s
  | none => s

/-- Drop a trailing case-insensitive logs segment, as the parser does
before scanning. -/
def dropLogsSeg (segs : List String) : List String :=
  match segs.getLast? with
  | some last => if jsToLower last = "logs" then segs.dropLast else segs
  | none => segs

/-- Resource reference produced by parseResourceReference; portalPfx
models the source field portalPrefix. -/
structure ResourceRef where
  baseUrl : String
  portalPfx : String
  resourceOwnerUsername : String
  resourceId : String
deriving DecidableEq

/-- Left-to-right scan of client.js parseResourceReference: first index
whose segment is literally u with resources two later; yields the
segments before the match plus the raw owner and resource id segments. -/
def scanResourcePattern : List String → Option (List String × String × String)
  | u :: o :: r :: i :: rest =>
    if u = "u" ∧ r = "resources" then some ([], o, i)
    else
      match scanResourcePattern (o :: r :: i :: rest) with
      | some (pre, ow, rid) => some (u :: pre, ow, rid)
      | none => none
  | _ => none

/-- client.js parseResourceReference. The ok none result is the null
("no match") outcome; the error result is a URIError escaping from
decodeURIComponent. -/
def parseResourceReferenceE (resource : Option String) : Except String (Option ResourceRef) :=
  match resource with
  | none => .ok none
  | some s =>
    let raw := jsTrim s
    if raw = "" then .ok none
    else
      match jsParseURL raw with
      | none => .ok none
      | some u =>
        let segs := dropLogsSeg (pathSegments u.pathname)
        match scanResourcePattern segs with
        | none => .ok none
        | some (pre, rawOw, rawRid) =>
          match decodeURIComponentB rawOw, decodeURIComponentB rawRid with
          | some ow, some rid =>
            let owner := jsTrim ow
            let resourceId := jsTrim rid
            if owner = "" ∨ resourceId = "" then .ok none
            else
              let pfx0 := if pre = [] then "" else "/" ++ joinSlash pre
              let pfx := if pfx0 = "/" then "" else pfx0
              .ok (some { baseUrl := stripTrailingSlash (u.scheme ++ "://" ++ u.host),
                          portalPfx := pfx,
                          resourceOwnerUsername := owner,
                          resourceId := resourceId })
          | _, _ => .error "URIError: URI malformed"

/-- Convenience total view of parseResourceReference for non-throwing
call sites. -/
def parseResourceReference (s : String) : Option ResourceRef :=
  match parseResourceReferenceE (some s) with
  | .ok r => r
  | .error _ => none

/-- JS a-or-else b for nullable strings: empty and null are falsy. -/
def jsOrD (a : Option String) (d : String) : String :=
  match a with
  | some s => if s = "" then d else s
  | none => d

/-- JS a-or-else b where both sides are nullable strings. -/
def jsOrOpt (a b : Option String) : Option String :=
  match a with
  | some s => if s = "" then b else some s
  | none => b

/-- JS value-or-null: an empty or missing string collapses to null. -/
def toNullable (a : Option String) : Option String :=
  match a with
  | some s => if s = "" then none else some s
  | none => none

/-- Is a nullable string truthy (non-null and non-empty)? -/
def truthyOpt (a : Option String) : Bool :=
  match a with
  | some s => s ≠ ""
  | none => false

/-- Source constant DEFAULT_BASE_URL. -/
def DEFAULT_BASE_URL : String := "https://alshival.dev"

/-- Source set TRUE_ENV_VALUES. -/
def TRUE_ENV_VALUES : List String := ["1", "true", "t", "yes", "y", "on"]

/-- The client configuration record; portalPfx models the tri-state
portalPrefix field (none = derive at read time). -/
structure Config where
  username : Option String
  resourceOwnerUsername : Option String
  apiKey : Option String
  baseUrl : String
  portalPfx : Option String
  resourceId : Option String
  enabled : Bool
  cloudLevel : Option Int
  timeoutSeconds : ℚ
  verifySsl : Bool
  debug : Bool
deriving DecidableEq

/-- client.js normalizePortalPrefix: null stays null, blank becomes the
empty string, otherwise leading and trailing slash runs are stripped and
a single leading slash is restored (a bare slash collapses to empty). -/
def normalizePortalPfx (value : Option String) : Option String :=
  match value with
  | none => none
  | some v =>
    let raw := jsTrim v
    if raw = "" then some ""
    else
      let inner := String.mk ((raw.data.dropWhile (fun c => c = '/')).reverse.dropWhile (fun c => c = '/')).reverse
      let cleaned := "/" ++ inner
      some (if cleaned = "/" then "" else cleaned)

/-- Environment snapshot consumed by buildClientConfigFromEnv; each field
holds the raw string value of the corresponding ALSHIVAL_* variable
(none = unset). portalPfx models ALSHIVAL_PORTAL_PREFIX. -/
structure Env where
  resource : Option String := none
  resourceUrl : Option String := none
  username : Option String := none
  apiKey : Option String := none
  baseUrl : Option String := none
  portalPfx : Option String := none
  cloudLevel : Option String := none
  debugFlag : Option String := none
deriving DecidableEq

/-- client.js envBool. -/
def envBool (value : Option String) (dflt : Bool) : Bool :=
  match value with
  | none => dflt
  | some v => jsToLower (jsTrim v) ∈ TRUE_ENV_VALUES

/-- client.js envCloudLevel: unset or blank falls back, coercion failure
falls back silently. -/
def envCloudLevel (value : Option String) (dflt : Option Int) : Option Int :=
  match value with
  | none => dflt
  | some v =>
    if jsTrim v = "" then dflt
    else
      match coerceCloudLevel (.str v) with
      | .ok l => l
      | .error _ => dflt

/-- client.js buildClientConfigFromEnv; the error result is a URIError
escaping from the resource-URL decode. -/
def buildClientConfigFromEnv (env : Env) : Except String Config := do
  let resourceEnv ← parseResourceReferenceE (jsOrOpt env.resource env.resourceUrl)
  let debugEnv := envBool env.debugFlag false
  let defaultCloudLevel : Option Int := some (if debugEnv then 10 else 20)
  let baseUrl :=
    match resourceEnv with
    | some r => r.baseUrl
    | none => jsOrD env.baseUrl DEFAULT_BASE_URL
  let pfx :=
    match resourceEnv with
    | some r => some r.portalPfx
    | none => normalizePortalPfx env.portalPfx
  pure { username := toNullable env.username
         resourceOwnerUsername := resourceEnv.map (fun r => r.resourceOwnerUsername)
         apiKey := toNullable env.apiKey
         baseUrl := stripTrailingSlash baseUrl
         portalPfx := pfx
         resourceId := resourceEnv.map (fun r => r.resourceId)
         enabled := true
         cloudLevel := envCloudLevel env.cloudLevel defaultCloudLevel
         timeoutSeconds := 5
         verifySsl := true
         debug := debugEnv }

/-- Patch given to configure, after the snake_case/camelCase synonym
resolution of its first lines: the outer Option is "was the field
supplied"; username, apiKey and portalPfx may be supplied as null;
cloudLevel carries the raw JS value fed to coerceCloudLevel; a supplied
non-finite timeoutSeconds is the inner none. -/
structure ConfigPatch where
  username : Option (Option String) := none
  resource : Option (Option String) := none
  apiKey : Option (Option String) := none
  baseUrl : Option String := none
  portalPfx : Option (Option String) := none
  enabled : Option Bool := none
  cloudLevel : Option JsValue := none
  timeoutSeconds : Option (Option ℚ) := none
  verifySsl : Option Bool := none
  debug : Option Bool := none
deriving DecidableEq

/-- Fields client.js configure applies after the cloud-level step
(timeoutSeconds, verifySsl, debug; a supplied non-finite timeout keeps
the prior value). -/
def configureTail (p : ConfigPatch) (cfg : Config) : Config :=
  { cfg with
    timeoutSeconds := match p.timeoutSeconds with
                      | some (some t) => t
                      | _ => cfg.timeoutSeconds,
    verifySsl := p.verifySsl.getD cfg.verifySsl,
    debug := p.debug.getD cfg.debug }

/-- The leading resource block of client.js configure: a parsed resource
supplies owner and id unconditionally and baseUrl/portalPrefix only when
those fields are not also explicitly supplied; a parse miss clears owner
and id; a URIError aborts with the configuration untouched. -/
def configureStep0 (p : ConfigPatch) (cfg : Config) : Except (Config × String) Config :=
  match p.resource with
  | none => .ok cfg
  | some r =>
    match parseResourceReferenceE r with
    | .error e => .error (cfg, e)
    | .ok none => .ok { cfg with resourceOwnerUsername := none, resourceId := none }
    | .ok (some ref) =>
      .ok { cfg with
            baseUrl := if p.baseUrl = none then ref.baseUrl else cfg.baseUrl,
            portalPfx := if p.portalPfx = none then some ref.portalPfx else cfg.portalPfx,
            resourceOwnerUsername := some ref.resourceOwnerUsername,
            resourceId := some ref.resourceId }

/-- The five plain field merges of client.js configure (username, apiKey,
baseUrl, portalPrefix, enabled): a supplied field overwrites, an
unsupplied one keeps its prior value. -/
def mergePlainFields (p : ConfigPatch) (cfg0 : Config) : Config :=
  { cfg0 with
    username := p.username.getD cfg0.username,
    apiKey := p.apiKey.getD cfg0.apiKey,
    baseUrl := match p.baseUrl with
               | some b => stripTrailingSlash b
               | none => cfg0.baseUrl,
    portalPfx := match p.portalPfx with
                 | some pp => normalizePortalPfx pp
                 | none => cfg0.portalPfx,
    enabled := p.enabled.getD cfg0.enabled }

/-- The rest of client.js configure after the resource block and the five
plain field merges: the cloud-level step (which may throw, leaving the
merges applied), then the tail fields. -/
def configureMain (p : ConfigPatch) (cfg0 : Config) : Config × Option String :=
  let cfg5 := mergePlainFields p cfg0
  match p.cloudLevel with
  | some v =>
    match coerceCloudLevel v with
    | .error e => (cfg5, some e)
    | .ok lvl => (configureTail p { cfg5 with cloudLevel := lvl }, none)
  | none =>
    let cfg6 :=
      if p.debug = some true ∧ cfg5.cloudLevel ≠ none then
        { cfg5 with cloudLevel := some 10 }
      else cfg5
    (configureTail p cfg6, none)

/-- client.js configure over an explicit configuration state: returns the
configuration as left behind (the source mutates it in place) together
with the message of a thrown InvalidLevel/URIError, if any. The two
trailing refresh hooks are no-ops here (the logger hook is a no-op in the
source and the MCP hook only rebuilds cached descriptors). -/
def configure (p : ConfigPatch) (cfg : Config) : Config × Option String :=
  match configureStep0 p cfg with
  | .error (c, e) => (c, some e)
  | .ok cfg0 => configureMain p cfg0

/-- client.js resolvedPortalPrefix: an explicit portalPrefix (even empty)
is returned verbatim, otherwise the baseUrl path supplies the value, and
for a bare path the canonical marketing hosts default to /DevTools. -/
def resolvedPortalPfx (cfg : Config) : String :=
  match cfg.portalPfx with
  | some p => p
  | none =>
    match jsParseURL cfg.baseUrl with
    | none => ""
    | some u =>
      let pathPfx := (normalizePortalPfx (some u.pathname)).getD ""
      if pathPfx ≠ "" then pathPfx
      else
        let host := jsToLower (jsTrim u.host)
        if host = "alshival.ai" ∨ host = "www.alshival.ai" then "/DevTools" else ""

/-- client.js buildResourceLogsEndpoint. -/
def buildResourceLogsEndpoint (cfg : Config) (username resourceId : String) : String :=
  let base :=
    match jsParseURL (if cfg.baseUrl = "" then DEFAULT_BASE_URL else cfg.baseUrl) with
    | some u => u.scheme ++ "://" ++ u.host
    | none => DEFAULT_BASE_URL
  base ++ resolvedPortalPfx cfg ++ "/u/" ++ encodeURIComponentB (jsTrim username)
    ++ "/resources/" ++ encodeURIComponentB (jsTrim resourceId) ++ "/logs/"

/-- logger.js CloudLogHandler: the attach-time bindings plus the
re-entrancy flag of emit. -/
structure CloudLogHandler where
  resourceId : Option String
  cloudLevel : Option Int
  inEmit : Bool := false
deriving DecidableEq

/-- The decision-relevant slice of a log record. -/
structure LogRecord where
  name : String
  levelno : Int
  levelname : String
  message : String
  alshival_resource_id : Option String := none
deriving DecidableEq

/-- CloudLogHandler.shouldForward. -/
def shouldForward (h : CloudLogHandler) (cfg : Config) (r : LogRecord) : Bool :=
  if ¬ cfg.enabled then false
  else
    match cfg.cloudLevel with
    | none => false
    | some cl =>
      let minLevel := match h.cloudLevel with | some hl => hl | none => cl
      if r.levelno < minLevel then false
      else if ¬ truthyOpt cfg.apiKey then false
      else if ¬ truthyOpt cfg.username then false
      else true

/-- First truthy, non-blank candidate, trimmed; empty when none. -/
def pickResourceId : List (Option String) → String
  | [] => ""
  | none :: rest => pickResourceId rest
  | some v :: rest => if v ≠ "" ∧ jsTrim v ≠ "" then jsTrim v else pickResourceId rest

/-- CloudLogHandler.resolvedResourceId: handler binding, then the
record's per-call override, then the configuration. -/
def resolvedResourceId (h : CloudLogHandler) (cfg : Config) (r : LogRecord) : String :=
  pickResourceId [h.resourceId, r.alshival_resource_id, cfg.resourceId]

/-- The observable shape of one transport call made by emit: the endpoint
URL, the two identity headers (userHeader none = the x-user-username
header is omitted) and the claim-relevant payload fields. -/
structure TransportCall where
  url : String
  apiKeyHeader : String
  userHeader : Option String
  payloadResourceId : String
  payloadLevel : String
  payloadMessage : String
deriving DecidableEq

/-- CloudLogHandler.emit: none models "no transport call" (re-entrant,
refused by shouldForward, or no resource id resolves); some models the
single fire-and-forget transport call with its URL, headers and payload. -/
def emit (h : CloudLogHandler) (cfg : Config) (r : LogRecord) : Option TransportCall :=
  if h.inEmit then none
  else if ¬ shouldForward h cfg r then none
  else
    let resolvedResource := resolvedResourceId h cfg r
    if resolvedResource = "" then none
    else
      let resourceOwner := jsTrim (jsOrD cfg.resourceOwnerUsername (jsOrD cfg.username ""))
      some { url := buildResourceLogsEndpoint cfg resourceOwner resolvedResource,
             apiKeyHeader := jsOrD cfg.apiKey "",
             userHeader := if truthyOpt cfg.username then cfg.username else none,
             payloadResourceId := resolvedResource,
             payloadLevel := jsToLower (if r.levelname = "" then "INFO" else r.levelname),
             payloadMessage := r.message }

/-- logger.js dedupeAddHandler: the first handler with an equal bound
resourceId is kept and only its cloudLevel is overwritten by a non-null
incoming level; otherwise the new handler is appended. -/
def dedupeAddHandler : List CloudLogHandler → CloudLogHandler → List CloudLogHandler
  | [], h => [h]
  | e :: rest, h =>
    if e.resourceId = h.resourceId then
      { e with cloudLevel := match h.cloudLevel with | some l => some l | none => e.cloudLevel } :: rest
    else e :: dedupeAddHandler rest h

/-- AlshivalLogger.attach restricted to an AlshivalLogger target, with
the level already normalized (attach feeds level/cloudLevel through
normalizedLevelNo before constructing the handler). -/
def attachHandler (handlers : List CloudLogHandler) (resourceId : Option String)
    (cloudLevel : Option Int) : List CloudLogHandler :=
  dedupeAddHandler handlers { resourceId := resourceId, cloudLevel := cloudLevel, inEmit := false }

/-- Configuration as the repository's own test suite resets it. -/
def cfgReset : Config :=
  { username := none, resourceOwnerUsername := none, apiKey := none,
    baseUrl := "https://alshival.ai", portalPfx := none, resourceId := none,
    enabled := true, cloudLevel := some 20, timeoutSeconds := 5,
    verifySsl := true, debug := false }

/-- The shared-resource configure call of the test suite. -/
def patchShared : ConfigPatch :=
  { username := some (some "viewer-user"), apiKey := some (some "k"),
    resource := some (some "https://alshival.dev/u/owner-user/resources/r/"),
    enabled := some true, cloudLevel := some (.str "INFO") }

/-- Fully-provisioned configuration used by the closed witnesses. -/
def cfgW : Config := (configure patchShared cfgReset).1

/-- Default cloud handler (as constructed by the logger constructor). -/
def hW : CloudLogHandler := { resourceId := none, cloudLevel := none }

/-- An INFO record as the logger facade builds it. -/
def rW : LogRecord :=
  { name := "alshival", levelno := 20, levelname := "INFO", message := "shared write" }

/-- Handler re-attached with the same (null) bound resourceId and an
ERROR-level override, as in the re-attach test scenario. -/
def hAttach : CloudLogHandler := { resourceId := none, cloudLevel := some 40 }

/-- Patch mixing useful fields with an invalid cloud-level token. -/
def pBad : ConfigPatch :=
  { username := some (some "u2"), timeoutSeconds := some (some 9),
    cloudLevel := some (.str "BOGUS") }

/-- Environment with both a resource URL and an explicit base URL set. -/
def envCex : Env :=
  { resource := some "https://rhost/u/o/resources/i/",
    baseUrl := some "https://explicit.example" }

/-- Parsed view of the witness configuration base URL. -/
def uW : URLRec := { scheme := "https", host := "alshival.dev", pathname := "/" }

/-- The transport call emitted in the witness scenario. -/
def callW : TransportCall :=
  { url := "https://alshival.dev/u/owner-user/resources/r/logs/",
    apiKeyHeader := "k", userHeader := some "viewer-user",
    payloadResourceId := "r", payloadLevel := "info",
    payloadMessage := "shared write" }

end Alshival

namespace Alshival

theorem shouldForward_iff (h : CloudLogHandler) (cfg : Config) (r : LogRecord) :
    shouldForward h cfg r = true ↔
      cfg.enabled = true ∧
      (∃ cl, cfg.cloudLevel = some cl ∧ h.cloudLevel.getD cl ≤ r.levelno) ∧
      truthyOpt cfg.apiKey = true ∧ truthyOpt cfg.username = true := by
  unfold shouldForward
  cases hen : cfg.enabled with
  | false => simp
  | true =>
    cases hcl : cfg.cloudLevel with
    | none => simp
    | some cl =>
      cases hov : h.cloudLevel with
      | none =>
        by_cases hlt : r.levelno < cl <;>
          by_cases hk : truthyOpt cfg.apiKey = true <;>
          by_cases hu : truthyOpt cfg.username = true <;>
          simp_all
      | some hl =>
        by_cases hlt : r.levelno < hl <;>
          by_cases hk : truthyOpt cfg.apiKey = true <;>
          by_cases hu : truthyOpt cfg.username = true <;>
          simp_all

/-- C1: a record is forwarded to the transport (emit makes its single
call) if and only if all six conditions hold: config.enabled, a
non-disabled config.cloudLevel, record level at or above the effective
minimum (the handler override when set, else config.cloudLevel), a
non-empty apiKey, a non-empty username, and a non-empty resource id
resolving from handler binding, then per-call override, then config. -/
theorem spec_C1 (cfg : Config) (h : CloudLogHandler) (r : LogRecord)
    (hfresh : h.inEmit = false) :
    (emit h cfg r).isSome = true ↔
      (cfg.enabled = true ∧
       (∃ cl, cfg.cloudLevel = some cl ∧ h.cloudLevel.getD cl ≤ r.levelno) ∧
       truthyOpt cfg.apiKey = true ∧
       truthyOpt cfg.username = true ∧
       resolvedResourceId h cfg r ≠ "") := by
  unfold emit
  simp only [hfresh, Bool.false_eq_true, if_false]
  cases hx : shouldForward h cfg r with
  | true =>
    have hiff := (shouldForward_iff h cfg r).mp hx
    by_cases hres : resolvedResourceId h cfg r = ""
    · simp [hx, hres, hiff]
    · simp [hx, hres, hiff]
  | false =>
    have hnot : ¬ (cfg.enabled = true ∧
        (∃ cl, cfg.cloudLevel = some cl ∧ h.cloudLevel.getD cl ≤ r.levelno) ∧
        truthyOpt cfg.apiKey = true ∧ truthyOpt cfg.username = true) := by
      intro hc
      exact absurd ((shouldForward_iff h cfg r).mpr hc) (by simp [hx])
    constructor
    · intro habs
      simp at habs
    · rintro ⟨hen, hex, hk, hu, _⟩
      exact absurd ⟨hen, hex, hk, hu⟩ hnot

/-- Closed witness for spec_C1 at the test-suite configuration. -/
theorem spec_C1_witness : (emit hW cfgW rW).isSome = true :=
  (spec_C1 cfgW hW rW rfl).mpr
    ⟨by decide, ⟨20, by decide, by decide⟩, by decide, by decide, by decide⟩

end Alshival

namespace Alshival

theorem spec_C3 (hs : List CloudLogHandler) (h : CloudLogHandler)
    (hmem : ∃ e ∈ hs, e.resourceId = h.resourceId) :
    ∃ i e, hs.get? i = some e ∧ e.resourceId = h.resourceId ∧
      (∀ j, j < i → ∀ e2, hs.get? j = some e2 → e2.resourceId ≠ h.resourceId) ∧
      dedupeAddHandler hs h =
        hs.set i { e with cloudLevel := match h.cloudLevel with
                                        | some l => some l
                                        | none => e.cloudLevel } ∧
      (dedupeAddHandler hs h).length = hs.length := by
  induction hs with
  | nil => simp at hmem
  | cons a rest ih =>
    by_cases ha : a.resourceId = h.resourceId
    · refine ⟨0, a, rfl, ha, ?_, ?_, ?_⟩
      · intro j hj
        omega
      · simp [dedupeAddHandler, ha]
      · simp [dedupeAddHandler, ha]
    · have hmem2 : ∃ e ∈ rest, e.resourceId = h.resourceId := by
        rcases hmem with ⟨e, he, heq⟩
        rcases List.mem_cons.mp he with rfl | hrest
        · exact absurd heq ha
        · exact ⟨e, hrest, heq⟩
      rcases ih hmem2 with ⟨i, e, hget, heq, hmin, hdeq, hlen⟩
      refine ⟨i + 1, e, by simpa using hget, heq, ?_, ?_, ?_⟩
      · intro j hj e2 hget2
        cases j with
        | zero =>
          simp at hget2
          subst hget2
          exact ha
        | succ k =>
          exact hmin k (by omega) e2 (by simpa using hget2)
      · simp [dedupeAddHandler, ha, hdeq]
      · simp [dedupeAddHandler, ha, hlen]

end Alshival

namespace Alshival

theorem configureTail_cloudLevel (p : ConfigPatch) (c : Config) :
    (configureTail p c).cloudLevel = c.cloudLevel := rfl

theorem mergePlainFields_cloudLevel (p : ConfigPatch) (c : Config) :
    (mergePlainFields p c).cloudLevel = c.cloudLevel := rfl

theorem configureStep0_cloudLevel (p : ConfigPatch) (cfg c0 : Config)
    (hok : configureStep0 p cfg = .ok c0) : c0.cloudLevel = cfg.cloudLevel := by
  unfold configureStep0 at hok
  rcases hr : p.resource with _ | r <;> simp only [hr] at hok
  · cases hok
    rfl
  · rcases hp : parseResourceReferenceE r with e | ref <;> simp only [hp] at hok
    · cases hok
    · rcases ref with _ | ref
      · cases hok
        rfl
      · cases hok
        rfl

theorem configureMain_cloudLevel (p : ConfigPatch) (c : Config)
    (hok : (configureMain p c).2 = none) :
    (configureMain p c).1.cloudLevel =
      match p.cloudLevel with
      | some v =>
        match coerceCloudLevel v with
        | .ok lvl => lvl
        | .error _ => c.cloudLevel
      | none => if p.debug = some true ∧ c.cloudLevel ≠ none then some 10 else c.cloudLevel := by
  unfold configureMain configureTail at hok ⊢
  rcases hcl : p.cloudLevel with _ | v
  · simp only [hcl] at hok ⊢
    by_cases hc : p.debug = some true ∧ c.cloudLevel ≠ none <;>
      simp [mergePlainFields_cloudLevel, hc]
  · simp only [hcl] at hok ⊢
    rcases hco : coerceCloudLevel v with e | lvl
    · simp only [hco] at hok
      exact Option.noConfusion hok
    · simp only [hco] at hok ⊢

theorem configure_ok_main (p : ConfigPatch) (cfg : Config)
    (hok : (configure p cfg).2 = none) :
    ∃ c0, configureStep0 p cfg = .ok c0 ∧ configure p cfg = configureMain p c0 ∧
      c0.cloudLevel = cfg.cloudLevel := by
  unfold configure at hok ⊢
  cases hs : configureStep0 p cfg with
  | error pr =>
    rcases pr with ⟨c, e⟩
    simp [hs] at hok
  | ok c0 =>
    exact ⟨c0, rfl, by simp [hs], configureStep0_cloudLevel p cfg c0 hs⟩

/-- C5: a configure call with debug true and no explicit cloud level
bumps a non-disabled cloudLevel to DEBUG (10) and leaves a disabled one
disabled; a call supplying an explicit valid cloudLevel takes exactly
the coerced value regardless of the debug flag. -/
theorem spec_C5 (cfg : Config) (p : ConfigPatch) :
    (p.debug = some true → p.cloudLevel = none → (configure p cfg).2 = none →
      ((cfg.cloudLevel ≠ none → (configure p cfg).1.cloudLevel = some 10) ∧
       (cfg.cloudLevel = none → (configure p cfg).1.cloudLevel = none))) ∧
    (∀ v lvl, p.cloudLevel = some v → coerceCloudLevel v = .ok lvl →
      (configure p cfg).2 = none → (configure p cfg).1.cloudLevel = lvl) := by
  constructor
  · intro hdbg hnocl hok
    rcases configure_ok_main p cfg hok with ⟨c0, hs, hconf, hc0⟩
    rw [hconf] at hok ⊢
    have heq := configureMain_cloudLevel p c0 hok
    rw [hnocl] at heq
    rw [heq, hc0]
    constructor
    · intro hne
      simp [hdbg, hne]
    · intro hcl
      simp [hcl]
  · intro v lvl hv hco hok
    rcases configure_ok_main p cfg hok with ⟨c0, hs, hconf, hc0⟩
    rw [hconf] at hok ⊢
    have heq := configureMain_cloudLevel p c0 hok
    rw [hv] at heq
    rw [heq]
    simp [hco]

/-- Closed witness for spec_C5: debug true on the test-reset state bumps
cloudLevel from INFO to DEBUG. -/
theorem spec_C5_witness :
    (configure { debug := some true } cfgReset).1.cloudLevel = some 10 :=
  ((spec_C5 cfgReset { debug := some true }).1 rfl rfl (by decide)).1 (by decide)

/-- Closed witness for spec_C3: re-attaching to the single default
handler with an ERROR override keeps one handler and raises its level. -/
theorem spec_C3_witness :
    ∃ i e, [hW].get? i = some e ∧ e.resourceId = hAttach.resourceId ∧
      (∀ j, j < i → ∀ e2, [hW].get? j = some e2 → e2.resourceId ≠ hAttach.resourceId) ∧
      dedupeAddHandler [hW] hAttach =
        [hW].set i { e with cloudLevel := match hAttach.cloudLevel with
                                          | some l => some l
                                          | none => e.cloudLevel } ∧
      (dedupeAddHandler [hW] hAttach).length = [hW].length :=
  spec_C3 [hW] hAttach ⟨hW, by decide, by decide⟩

end Alshival

namespace Alshival

theorem configureStep0_frame (p : ConfigPatch) (cfg c0 : Config)
    (hok : configureStep0 p cfg = .ok c0) :
    c0.username = cfg.username ∧ c0.apiKey = cfg.apiKey ∧ c0.enabled = cfg.enabled ∧
    c0.cloudLevel = cfg.cloudLevel ∧ c0.timeoutSeconds = cfg.timeoutSeconds ∧
    c0.verifySsl = cfg.verifySsl ∧ c0.debug = cfg.debug := by
  unfold configureStep0 at hok
  rcases hr : p.resource with _ | r <;> simp only [hr] at hok
  · cases hok
    exact ⟨rfl, rfl, rfl, rfl, rfl, rfl, rfl⟩
  · rcases hp : parseResourceReferenceE r with e | ref <;> simp only [hp] at hok
    · cases hok
    · rcases ref with _ | ref
      · cases hok
        exact ⟨rfl, rfl, rfl, rfl, rfl, rfl, rfl⟩
      · cases hok
        exact ⟨rfl, rfl, rfl, rfl, rfl, rfl, rfl⟩

/-- C10: configure is not atomic on an invalid cloud-level token: it
throws InvalidLevel, yet the fields processed before the coercion
(resource-derived owner and id, username, apiKey, baseUrl, portalPrefix,
enabled) are already applied and stay applied, while timeoutSeconds,
verifySsl, debug and cloudLevel keep their prior values. -/
theorem spec_C10 (cfg : Config) (p : ConfigPatch) (v : JsValue) (msg : String)
    (hv : p.cloudLevel = some v) (hbad : coerceCloudLevel v = .error msg)
    (hres : match p.resource with
            | none => True
            | some r => (parseResourceReferenceE r).isOk = true) :
    ∃ c0, configureStep0 p cfg = .ok c0 ∧
      configure p cfg = (mergePlainFields p c0, some msg) ∧
      (∀ u, p.username = some u → (configure p cfg).1.username = u) ∧
      (∀ k, p.apiKey = some k → (configure p cfg).1.apiKey = k) ∧
      (∀ b, p.baseUrl = some b → (configure p cfg).1.baseUrl = stripTrailingSlash b) ∧
      (∀ pp, p.portalPfx = some pp → (configure p cfg).1.portalPfx = normalizePortalPfx pp) ∧
      (∀ en, p.enabled = some en → (configure p cfg).1.enabled = en) ∧
      (∀ r ref, p.resource = some r → parseResourceReferenceE r = .ok (some ref) →
        (configure p cfg).1.resourceOwnerUsername = some ref.resourceOwnerUsername ∧
        (configure p cfg).1.resourceId = some ref.resourceId) ∧
      (configure p cfg).1.timeoutSeconds = cfg.timeoutSeconds ∧
      (configure p cfg).1.verifySsl = cfg.verifySsl ∧
      (configure p cfg).1.debug = cfg.debug ∧
      (configure p cfg).1.cloudLevel = cfg.cloudLevel := by
  have hstep : ∃ c0, configureStep0 p cfg = .ok c0 := by
    cases hs0 : configureStep0 p cfg with
    | ok c0 => exact ⟨c0, rfl⟩
    | error pr =>
      exfalso
      unfold configureStep0 at hs0
      rcases hr : p.resource with _ | r <;> rw [hr] at hs0
      · simp at hs0
      · rw [hr] at hres
        rcases hp : parseResourceReferenceE r with e | ref
        · simp [hp, Except.isOk, Except.toBool] at hres
        · rcases ref with _ | ref <;> simp only [hp] at hs0 <;>
            exact Except.noConfusion hs0
  rcases hstep with ⟨c0, hs⟩
  have hconf : configure p cfg = (mergePlainFields p c0, some msg) := by
    unfold configure configureMain
    rw [hs]
    simp only [hv, hbad]
  refine ⟨c0, hs, hconf, ?_, ?_, ?_, ?_, ?_, ?_, ?_, ?_, ?_, ?_⟩
  · intro u hu
    rw [hconf]
    simp [mergePlainFields, hu]
  · intro k hk
    rw [hconf]
    simp [mergePlainFields, hk]
  · intro b hb
    rw [hconf]
    simp [mergePlainFields, hb]
  · intro pp hpp
    rw [hconf]
    simp [mergePlainFields, hpp]
  · intro en hen
    rw [hconf]
    simp [mergePlainFields, hen]
  · intro r ref hr href
    rw [hconf]
    have hs2 := hs
    unfold configureStep0 at hs2
    rw [hr] at hs2
    simp only [href] at hs2
    cases hs2
    constructor
    · simp [mergePlainFields]
    · simp [mergePlainFields]
  · rw [hconf]
    have hfr := configureStep0_frame p cfg c0 hs
    simp [mergePlainFields, hfr.2.2.2.2.1]
  · rw [hconf]
    have hfr := configureStep0_frame p cfg c0 hs
    simp [mergePlainFields, hfr.2.2.2.2.2.1]
  · rw [hconf]
    have hfr := configureStep0_frame p cfg c0 hs
    simp [mergePlainFields, hfr.2.2.2.2.2.2]
  · rw [hconf]
    have hfr := configureStep0_frame p cfg c0 hs
    simp [mergePlainFields, hfr.2.2.2.1]

/-- Closed witness for spec_C10 at a concrete mixed patch. -/
theorem spec_C10_witness :
    ∃ c0, configureStep0 pBad cfgReset = .ok c0 ∧
      configure pBad cfgReset = (mergePlainFields pBad c0, some "Invalid log level: BOGUS") ∧
      (∀ u, pBad.username = some u → (configure pBad cfgReset).1.username = u) ∧
      (∀ k, pBad.apiKey = some k → (configure pBad cfgReset).1.apiKey = k) ∧
      (∀ b, pBad.baseUrl = some b → (configure pBad cfgReset).1.baseUrl = stripTrailingSlash b) ∧
      (∀ pp, pBad.portalPfx = some pp →
        (configure pBad cfgReset).1.portalPfx = normalizePortalPfx pp) ∧
      (∀ en, pBad.enabled = some en → (configure pBad cfgReset).1.enabled = en) ∧
      (∀ r ref, pBad.resource = some r → parseResourceReferenceE r = .ok (some ref) →
        (configure pBad cfgReset).1.resourceOwnerUsername = some ref.resourceOwnerUsername ∧
        (configure pBad cfgReset).1.resourceId = some ref.resourceId) ∧
      (configure pBad cfgReset).1.timeoutSeconds = cfgReset.timeoutSeconds ∧
      (configure pBad cfgReset).1.verifySsl = cfgReset.verifySsl ∧
      (configure pBad cfgReset).1.debug = cfgReset.debug ∧
      (configure pBad cfgReset).1.cloudLevel = cfgReset.cloudLevel :=
  spec_C10 cfgReset pBad (.str "BOGUS") "Invalid log level: BOGUS" rfl (by decide) (by trivial)

end Alshival

namespace Alshival

theorem configureStep0_resource_none (p : ConfigPatch) (cfg : Config)
    (hr : p.resource = none) : configureStep0 p cfg = .ok cfg := by
  unfold configureStep0
  rw [hr]

theorem configureMain_fst_fields (p : ConfigPatch) (c : Config) :
    (configureMain p c).1.username = (mergePlainFields p c).username ∧
    (configureMain p c).1.apiKey = (mergePlainFields p c).apiKey ∧
    (configureMain p c).1.baseUrl = (mergePlainFields p c).baseUrl ∧
    (configureMain p c).1.portalPfx = (mergePlainFields p c).portalPfx ∧
    (configureMain p c).1.resourceOwnerUsername = (mergePlainFields p c).resourceOwnerUsername ∧
    (configureMain p c).1.resourceId = (mergePlainFields p c).resourceId ∧
    (configureMain p c).1.enabled = (mergePlainFields p c).enabled := by
  unfold configureMain configureTail
  rcases hcl : p.cloudLevel with _ | v
  · by_cases hc : p.debug = some true ∧ (mergePlainFields p c).cloudLevel ≠ none <;>
      simp [hc]
  · rcases hco : coerceCloudLevel v with e | lvl <;> simp [hco]

theorem configureMain_tail_fields (p : ConfigPatch) (c : Config)
    (hok : (configureMain p c).2 = none) :
    (configureMain p c).1.timeoutSeconds =
      (match p.timeoutSeconds with | some (some t) => t | _ => c.timeoutSeconds) ∧
    (configureMain p c).1.verifySsl = p.verifySsl.getD c.verifySsl ∧
    (configureMain p c).1.debug = p.debug.getD c.debug := by
  unfold configureMain configureTail at hok ⊢
  rcases hcl : p.cloudLevel with _ | v
  · simp only [hcl]
    split_ifs <;> simp [mergePlainFields]
  · rcases hco : coerceCloudLevel v with e | lvl
    · simp only [hcl, hco] at hok
      exact Option.noConfusion hok
    · simp [hcl, hco, mergePlainFields]

/-- C4 counterexample: the claim "every configuration field not supplied
in the patch retains its prior value" fails: a patch supplying only
debug true changes the unsupplied cloudLevel from INFO (20) to DEBUG
(10). -/
theorem spec_C4_cex :
    ({ debug := some true : ConfigPatch }).cloudLevel = none ∧
    cfgReset.cloudLevel = some 20 ∧
    (configure { debug := some true } cfgReset).1.cloudLevel = some 10 ∧
    (configure { debug := some true } cfgReset).1.cloudLevel ≠ cfgReset.cloudLevel := by
  refine ⟨rfl, rfl, ?_, ?_⟩ <;> decide

/-- C4 (amended): configure is a field-by-field merge — every field not
supplied retains its prior value, except cloudLevel which the debug:true
special rule may bump to DEBUG even though unsupplied; a supplied
resource reference that parses sets owner/id unconditionally and
baseUrl/portalPrefix only when those were not also explicitly supplied
(explicit fields win); a parse failure clears owner/id to null. -/
theorem spec_C4 (cfg : Config) (p : ConfigPatch) :
    ((configure p cfg).2 = none →
      (p.username = none → (configure p cfg).1.username = cfg.username) ∧
      (p.apiKey = none → (configure p cfg).1.apiKey = cfg.apiKey) ∧
      (p.resource = none → p.baseUrl = none → (configure p cfg).1.baseUrl = cfg.baseUrl) ∧
      (p.resource = none → p.portalPfx = none →
        (configure p cfg).1.portalPfx = cfg.portalPfx) ∧
      (p.resource = none →
        (configure p cfg).1.resourceOwnerUsername = cfg.resourceOwnerUsername ∧
        (configure p cfg).1.resourceId = cfg.resourceId) ∧
      (p.enabled = none → (configure p cfg).1.enabled = cfg.enabled) ∧
      (p.timeoutSeconds = none → (configure p cfg).1.timeoutSeconds = cfg.timeoutSeconds) ∧
      (p.verifySsl = none → (configure p cfg).1.verifySsl = cfg.verifySsl) ∧
      (p.debug = none → (configure p cfg).1.debug = cfg.debug) ∧
      (p.cloudLevel = none → ¬ (p.debug = some true ∧ cfg.cloudLevel ≠ none) →
        (configure p cfg).1.cloudLevel = cfg.cloudLevel)) ∧
    (∀ r ref, p.resource = some r → parseResourceReferenceE r = .ok (some ref) →
      (configure p cfg).2 = none →
      (configure p cfg).1.resourceOwnerUsername = some ref.resourceOwnerUsername ∧
      (configure p cfg).1.resourceId = some ref.resourceId ∧
      (p.baseUrl = none → (configure p cfg).1.baseUrl = ref.baseUrl) ∧
      (p.portalPfx = none → (configure p cfg).1.portalPfx = some ref.portalPfx) ∧
      (∀ b, p.baseUrl = some b → (configure p cfg).1.baseUrl = stripTrailingSlash b) ∧
      (∀ pp, p.portalPfx = some pp →
        (configure p cfg).1.portalPfx = normalizePortalPfx pp)) ∧
    (∀ r, p.resource = some r → parseResourceReferenceE r = .ok none →
      (configure p cfg).2 = none →
      (configure p cfg).1.resourceOwnerUsername = none ∧
      (configure p cfg).1.resourceId = none) := by
  refine ⟨?_, ?_, ?_⟩
  · intro hok
    rcases configure_ok_main p cfg hok with ⟨c0, hs, hconf, hc0⟩
    rw [hconf] at hok ⊢
    have hfst := configureMain_fst_fields p c0
    have htail := configureMain_tail_fields p c0 hok
    have hfr := configureStep0_frame p cfg c0 hs
    refine ⟨?_, ?_, ?_, ?_, ?_, ?_, ?_, ?_, ?_, ?_⟩
    · intro hu
      rw [hfst.1]
      simp [mergePlainFields, hu, hfr.1]
    · intro hk
      rw [hfst.2.1]
      simp [mergePlainFields, hk, hfr.2.1]
    · intro hr hb
      have : c0 = cfg := by
        have := configureStep0_resource_none p cfg hr
        rw [this] at hs
        exact (Except.ok.inj hs).symm
      rw [hfst.2.2.1]
      simp [mergePlainFields, hb, this]
    · intro hr hpp
      have : c0 = cfg := by
        have := configureStep0_resource_none p cfg hr
        rw [this] at hs
        exact (Except.ok.inj hs).symm
      rw [hfst.2.2.2.1]
      simp [mergePlainFields, hpp, this]
    · intro hr
      have : c0 = cfg := by
        have := configureStep0_resource_none p cfg hr
        rw [this] at hs
        exact (Except.ok.inj hs).symm
      rw [hfst.2.2.2.2.1, hfst.2.2.2.2.2.1]
      simp [mergePlainFields, this]
    · intro hen
      rw [hfst.2.2.2.2.2.2]
      simp [mergePlainFields, hen, hfr.2.2.1]
    · intro ht
      rw [htail.1]
      simp [ht, hfr.2.2.2.2.1]
    · intro hvs
      rw [htail.2.1]
      simp [hvs, hfr.2.2.2.2.2.1]
    · intro hd
      rw [htail.2.2]
      simp [hd, hfr.2.2.2.2.2.2]
    · intro hncl hnbump
      have heq := configureMain_cloudLevel p c0 hok
      rw [hncl] at heq
      rw [heq, hc0]
      simp only [hc0] at hnbump ⊢
      simp [hnbump]
  · intro r ref hr href hok
    rcases configure_ok_main p cfg hok with ⟨c0, hs, hconf, hc0⟩
    rw [hconf] at hok ⊢
    have hfst := configureMain_fst_fields p c0
    have hs2 := hs
    unfold configureStep0 at hs2
    rw [hr] at hs2
    simp only [href] at hs2
    cases hs2
    refine ⟨?_, ?_, ?_, ?_, ?_, ?_⟩
    · rw [hfst.2.2.2.2.1]
      simp [mergePlainFields]
    · rw [hfst.2.2.2.2.2.1]
      simp [mergePlainFields]
    · intro hb
      rw [hfst.2.2.1]
      simp [mergePlainFields, hb]
    · intro hpp
      rw [hfst.2.2.2.1]
      simp [mergePlainFields, hpp]
    · intro b hb
      rw [hfst.2.2.1]
      simp [mergePlainFields, hb]
    · intro pp hpp
      rw [hfst.2.2.2.1]
      simp [mergePlainFields, hpp]
  · intro r hr href hok
    rcases configure_ok_main p cfg hok with ⟨c0, hs, hconf, hc0⟩
    rw [hconf] at hok ⊢
    have hfst := configureMain_fst_fields p c0
    have hs2 := hs
    unfold configureStep0 at hs2
    rw [hr] at hs2
    simp only [href] at hs2
    cases hs2
    constructor
    · rw [hfst.2.2.2.2.1]
      simp [mergePlainFields]
    · rw [hfst.2.2.2.2.2.1]
      simp [mergePlainFields]

/-- Closed witness for spec_C4: the shared-resource patch applies the
resource-derived fields and retains the unsupplied timeout. -/
theorem spec_C4_witness :
    (configure patchShared cfgReset).1.resourceOwnerUsername = some "owner-user" ∧
    (configure patchShared cfgReset).1.resourceId = some "r" ∧
    (configure patchShared cfgReset).1.baseUrl = "https://alshival.dev" ∧
    (configure patchShared cfgReset).1.timeoutSeconds = cfgReset.timeoutSeconds := by
  have h2 := (spec_C4 cfgReset patchShared).2.1
    (some "https://alshival.dev/u/owner-user/resources/r/")
    { baseUrl := "https://alshival.dev", portalPfx := "",
      resourceOwnerUsername := "owner-user", resourceId := "r" }
    rfl (by decide) (by decide)
  have h1 := ((spec_C4 cfgReset patchShared).1 (by decide)).2.2.2.2.2.2.1 rfl
  exact ⟨h2.1, h2.2.1, h2.2.2.1 rfl, h1⟩

end Alshival

namespace Alshival

theorem keys_of_lookup {β : Type} (l : List (String × β)) (u : String) (n : β)
    (h : l.lookup u = some n) : u ∈ l.map Prod.fst := by
  induction l with
  | nil => simp [List.lookup] at h
  | cons a rest ih =>
    rcases a with ⟨k, v⟩
    rw [List.lookup] at h
    cases hbeq : u == k with
    | true =>
      simp only [List.map_cons, List.mem_cons]
      exact Or.inl (eq_of_beq hbeq)
    | false =>
      rw [hbeq] at h
      simp only [List.map_cons, List.mem_cons]
      exact Or.inr (ih h)

/-- C6: the full contract of the two coercion functions: null and false
disable, finite numbers truncate, disable tokens (case-insensitive)
disable, the local alias table (WARN=WARNING=30, ALERTS=ALERT=45,
FATAL=CRITICAL=50) resolves, true and unknown strings throw; the cloud
coercion throws for every non-string, maps NONE (any case) to disabled,
resolves only the restricted five-name table and throws otherwise. -/
theorem spec_C6 :
    coerceLevel .null = .ok none ∧
    coerceLevel (.bool false) = .ok none ∧
    (∀ q : ℚ, coerceLevel (.num q) = .ok (some (jsTrunc q))) ∧
    (∀ s, jsToUpper (jsTrim s) ∈ DISABLED_LEVEL_VALUES → coerceLevel (.str s) = .ok none) ∧
    (∀ s n, LEVEL_NAME_TO_NO.lookup (jsToUpper (jsTrim s)) = some n →
      coerceLevel (.str s) = .ok (some n)) ∧
    coerceLevel (.str "WARN") = .ok (some 30) ∧
    coerceLevel (.str "WARNING") = .ok (some 30) ∧
    coerceLevel (.str "ALERTS") = .ok (some 45) ∧
    coerceLevel (.str "ALERT") = .ok (some 45) ∧
    coerceLevel (.str "FATAL") = .ok (some 50) ∧
    coerceLevel (.str "CRITICAL") = .ok (some 50) ∧
    (∃ e, coerceLevel (.bool true) = .error e) ∧
    (∀ s, jsToUpper (jsTrim s) ∉ DISABLED_LEVEL_VALUES →
      LEVEL_NAME_TO_NO.lookup (jsToUpper (jsTrim s)) = none →
      ∃ e, coerceLevel (.str s) = .error e) ∧
    (∀ v : JsValue, (∀ s, v ≠ .str s) → ∃ e, coerceCloudLevel v = .error e) ∧
    (∀ s, jsToUpper (jsTrim s) = "NONE" → coerceCloudLevel (.str s) = .ok none) ∧
    (∀ s n, jsToUpper (jsTrim s) ≠ "NONE" →
      CLOUD_LEVEL_NAME_TO_NO.lookup (jsToUpper (jsTrim s)) = some n →
      coerceCloudLevel (.str s) = .ok (some n)) ∧
    (∀ u n, CLOUD_LEVEL_NAME_TO_NO.lookup u = some n →
      u ∈ (["ALERT", "ERROR", "WARNING", "INFO", "DEBUG"] : List String)) ∧
    (∀ s, jsToUpper (jsTrim s) ≠ "NONE" →
      CLOUD_LEVEL_NAME_TO_NO.lookup (jsToUpper (jsTrim s)) = none →
      ∃ e, coerceCloudLevel (.str s) = .error e) := by
  have hdis : ∀ u ∈ DISABLED_LEVEL_VALUES, LEVEL_NAME_TO_NO.lookup u = none := by decide
  refine ⟨rfl, rfl, fun q => rfl, ?_, ?_, by decide, by decide, by decide, by decide,
    by decide, by decide, ⟨_, rfl⟩, ?_, ?_, ?_, ?_, ?_, ?_⟩
  · intro s hmem
    simp [coerceLevel, hmem]
  · intro s n hl
    have hnd : jsToUpper (jsTrim s) ∉ DISABLED_LEVEL_VALUES := by
      intro hm
      rw [hdis _ hm] at hl
      cases hl
    simp [coerceLevel, hnd, hl]
  · intro s h1 h2
    exact ⟨"Invalid log level: " ++ s, by simp [coerceLevel, h1, h2]⟩
  · intro v hv
    cases v with
    | null => exact ⟨_, rfl⟩
    | bool b => exact ⟨_, rfl⟩
    | num q => exact ⟨_, rfl⟩
    | str s => exact absurd rfl (hv s)
  · intro s h
    simp [coerceCloudLevel, h]
  · intro s n hne hl
    simp [coerceCloudLevel, hne, hl]
  · intro u n hl
    simpa [CLOUD_LEVEL_NAME_TO_NO] using keys_of_lookup CLOUD_LEVEL_NAME_TO_NO u n hl
  · intro s hne hl
    exact ⟨"Invalid log level: " ++ s, by simp [coerceCloudLevel, hne, hl]⟩

/-- Closed witness for spec_C6 at concrete tokens of each clause. -/
theorem spec_C6_witness :
    coerceLevel (.str " Off ") = .ok none ∧
    coerceLevel (.str "fatal") = .ok (some 50) ∧
    (∃ e, coerceLevel (.str "BOGUS") = .error e) ∧
    coerceCloudLevel (.str "NoNe") = .ok none ∧
    (∃ e, coerceCloudLevel (.num 40) = .error e) ∧
    (∃ e, coerceCloudLevel (.str "CRITICAL") = .error e) := by
  obtain ⟨h1, h2, h3, h4, h5, _, _, _, _, _, _, htrue, hbadstr, hnonstr, hnone, hcloud,
    hdom, hcloudbad⟩ := spec_C6
  exact ⟨h4 " Off " (by decide), h5 "fatal" 50 (by decide),
    hbadstr "BOGUS" (by decide) (by decide), hnone "NoNe" (by decide),
    hnonstr (.num 40) (fun s h => JsValue.noConfusion h),
    hcloudbad "CRITICAL" (by decide) (by decide)⟩

/-- C8 counterexample: the host www.alshival.ai also defaults the portal
path to /DevTools, so "/DevTools exactly for host alshival.ai, empty for
every other host" fails. -/
theorem spec_C8_cex :
    jsParseURL "https://www.alshival.ai" =
      some { scheme := "https", host := "www.alshival.ai", pathname := "/" } ∧
    "www.alshival.ai" ≠ "alshival.ai" ∧
    resolvedPortalPfx { cfgReset with baseUrl := "https://www.alshival.ai" } = "/DevTools" ∧
    resolvedPortalPfx { cfgReset with baseUrl := "https://www.alshival.ai" } ≠ "" := by
  refine ⟨by decide, by decide, by decide, by decide⟩

/-- C8 (amended): resolvedPortalPrefix returns a non-null stored prefix
verbatim (including the empty string); otherwise it uses the baseUrl
path when its normalisation is non-empty; otherwise it returns /DevTools
exactly for the hosts alshival.ai and www.alshival.ai and the empty
string for every other host; an unparseable baseUrl yields empty. -/
theorem spec_C8 (cfg : Config) :
    (∀ p, cfg.portalPfx = some p → resolvedPortalPfx cfg = p) ∧
    (cfg.portalPfx = none → ∀ u, jsParseURL cfg.baseUrl = some u →
      (∀ pp, normalizePortalPfx (some u.pathname) = some pp → pp ≠ "" →
        resolvedPortalPfx cfg = pp) ∧
      (normalizePortalPfx (some u.pathname) = some "" →
        resolvedPortalPfx cfg =
          (if jsToLower (jsTrim u.host) = "alshival.ai" ∨
              jsToLower (jsTrim u.host) = "www.alshival.ai"
           then "/DevTools" else ""))) ∧
    (cfg.portalPfx = none → jsParseURL cfg.baseUrl = none → resolvedPortalPfx cfg = "") := by
  refine ⟨?_, ?_, ?_⟩
  · intro p hp
    simp [resolvedPortalPfx, hp]
  · intro hnone u hu
    constructor
    · intro pp hpp hne
      simp [resolvedPortalPfx, hnone, hu, hpp, hne]
    · intro hpp
      simp [resolvedPortalPfx, hnone, hu, hpp]
  · intro hnone hu
    simp [resolvedPortalPfx, hnone, hu]

/-- Closed witness for spec_C8: the bare marketing host with no stored
prefix resolves to /DevTools. -/
theorem spec_C8_witness : resolvedPortalPfx cfgReset = "/DevTools" := by
  have h := ((spec_C8 cfgReset).2.1 rfl
    { scheme := "https", host := "alshival.ai", pathname := "/" } (by decide)).2 (by decide)
  rw [h]
  decide

/-- C2 counterexample: with both the resource URL and the explicit base
URL environment variables set, the configuration takes the
resource-derived base URL, not the explicit one. -/
theorem spec_C2_cex :
    envCex.baseUrl = some "https://explicit.example" ∧
    (buildClientConfigFromEnv envCex).map (fun c => c.baseUrl) = .ok "https://rhost" ∧
    "https://rhost" ≠ "https://explicit.example" := by
  refine ⟨rfl, by decide, by decide⟩

/-- C2 (amended): buildClientConfigFromEnv reads the environment resource
URL first; when it parses it supplies resourceOwnerUsername, resourceId,
baseUrl and portalPrefix unconditionally — the resource-derived base URL
wins even when the explicit base-URL variable is also set; only when no
resource reference parses do the explicit base-URL and portal-prefix
variables (or their defaults) apply. -/
theorem spec_C2 (env : Env) :
    (∀ ref, parseResourceReferenceE (jsOrOpt env.resource env.resourceUrl) = .ok (some ref) →
      (buildClientConfigFromEnv env).map (fun c => c.resourceOwnerUsername) =
        .ok (some ref.resourceOwnerUsername) ∧
      (buildClientConfigFromEnv env).map (fun c => c.resourceId) = .ok (some ref.resourceId) ∧
      (buildClientConfigFromEnv env).map (fun c => c.baseUrl) =
        .ok (stripTrailingSlash ref.baseUrl) ∧
      (buildClientConfigFromEnv env).map (fun c => c.portalPfx) = .ok (some ref.portalPfx)) ∧
    (parseResourceReferenceE (jsOrOpt env.resource env.resourceUrl) = .ok none →
      (buildClientConfigFromEnv env).map (fun c => c.resourceOwnerUsername) = .ok none ∧
      (buildClientConfigFromEnv env).map (fun c => c.resourceId) = .ok none ∧
      (buildClientConfigFromEnv env).map (fun c => c.baseUrl) =
        .ok (stripTrailingSlash (jsOrD env.baseUrl DEFAULT_BASE_URL)) ∧
      (buildClientConfigFromEnv env).map (fun c => c.portalPfx) =
        .ok (normalizePortalPfx env.portalPfx)) := by
  constructor
  · intro ref h
    refine ⟨?_, ?_, ?_, ?_⟩ <;>
      simp [buildClientConfigFromEnv, h, Except.bind, Except.pure, Except.map]
  · intro h
    refine ⟨?_, ?_, ?_, ?_⟩ <;>
      simp [buildClientConfigFromEnv, h, Except.bind, Except.pure, Except.map]

/-- Closed witness for spec_C2 at the two-variable environment. -/
theorem spec_C2_witness :
    (buildClientConfigFromEnv envCex).map (fun c => c.resourceOwnerUsername) = .ok (some "o") ∧
    (buildClientConfigFromEnv envCex).map (fun c => c.resourceId) = .ok (some "i") ∧
    (buildClientConfigFromEnv envCex).map (fun c => c.baseUrl) =
      .ok (stripTrailingSlash "https://rhost") ∧
    (buildClientConfigFromEnv envCex).map (fun c => c.portalPfx) = .ok (some "") :=
  (spec_C2 envCex).1
    { baseUrl := "https://rhost", portalPfx := "",
      resourceOwnerUsername := "o", resourceId := "i" }
    (by decide)

end Alshival

namespace Alshival

theorem dropWhile_append_last {α : Type} (p : α → Bool) (xs : List α) (c : α)
    (hc : p c = false) : (xs ++ [c]).dropWhile p = xs.dropWhile p ++ [c] := by
  induction xs with
  | nil => simp [List.dropWhile, hc]
  | cons a t ih =>
    cases ha : p a <;> simp [List.dropWhile_cons, ha, ih]

theorem dropWhile_idem {α : Type} (p : α → Bool) (l : List α) :
    (l.dropWhile p).dropWhile p = l.dropWhile p := by
  induction l with
  | nil => simp
  | cons a t ih =>
    cases ha : p a <;> simp [List.dropWhile_cons, ha, ih]

theorem jsTrim_idem (s : String) : jsTrim (jsTrim s) = jsTrim s := by
  unfold jsTrim
  cases hd : s.data.dropWhile Char.isWhitespace with
  | nil => simp [hd]
  | cons c t =>
    have h0 : 0 < (s.data.dropWhile Char.isWhitespace).length := by
      rw [hd]
      simp
    have hc0 := List.dropWhile_get_zero_not (p := Char.isWhitespace) s.data h0
    have hc : Char.isWhitespace c = false := by
      revert hc0
      rw [show (s.data.dropWhile Char.isWhitespace).get ⟨0, h0⟩ = c by simp [hd]]
      cases hcc : Char.isWhitespace c <;> simp
    rw [List.reverse_cons, dropWhile_append_last _ _ _ hc, List.reverse_append]
    simp only [List.reverse_cons, List.reverse_nil, List.nil_append, List.cons_append,
      List.singleton_append]
    rw [List.dropWhile_cons]
    simp only [hc, Bool.false_eq_true, if_false]
    rw [List.reverse_cons, dropWhile_append_last _ _ _ hc, List.reverse_append,
      List.reverse_reverse, dropWhile_idem]
    simp

theorem jsTrim_empty : jsTrim "" = "" := rfl

theorem jsTrim_pickResourceId (l : List (Option String)) :
    jsTrim (pickResourceId l) = pickResourceId l := by
  induction l with
  | nil => exact jsTrim_empty
  | cons a rest ih =>
    cases a with
    | none => simpa [pickResourceId] using ih
    | some v =>
      by_cases hv : v ≠ "" ∧ jsTrim v ≠ ""
      · simp [pickResourceId, hv, jsTrim_idem]
      · simpa [pickResourceId, hv] using ih

end Alshival

namespace Alshival

/-- C9: whenever emit forwards a record, the single transport call has
URL scheme-plus-host of baseUrl, then the resolved portal path, then
/u/{encoded owner-or-username}/resources/{encoded resource id}/logs/
(owner-or-username is resourceOwnerUsername when set, else username);
its headers carry the apiKey and carry x-user-username exactly because
the username is present; and the payload level is the lowercased record
level name. -/
theorem spec_C9 (cfg : Config) (h : CloudLogHandler) (r : LogRecord) (call : TransportCall)
    (u : URLRec) (hu : jsParseURL cfg.baseUrl = some u) (hb : cfg.baseUrl ≠ "")
    (hlvl : r.levelname ≠ "") (hemit : emit h cfg r = some call) :
    call.url = u.scheme ++ "://" ++ u.host ++ resolvedPortalPfx cfg ++ "/u/"
        ++ encodeURIComponentB (jsTrim (jsOrD cfg.resourceOwnerUsername (jsOrD cfg.username "")))
        ++ "/resources/" ++ encodeURIComponentB (resolvedResourceId h cfg r) ++ "/logs/" ∧
    (∃ k, cfg.apiKey = some k ∧ k ≠ "" ∧ call.apiKeyHeader = k) ∧
    (call.userHeader = cfg.username ∧ truthyOpt cfg.username = true) ∧
    call.payloadResourceId = resolvedResourceId h cfg r ∧
    call.payloadLevel = jsToLower r.levelname := by
  unfold emit at hemit
  cases hin : h.inEmit with
  | true =>
    rw [hin] at hemit
    simp at hemit
  | false =>
    rw [hin] at hemit
    simp only [Bool.false_eq_true, if_false] at hemit
    cases hfwd : shouldForward h cfg r with
    | false =>
      rw [hfwd] at hemit
      simp at hemit
    | true =>
      rw [hfwd] at hemit
      simp only [not_true, if_false] at hemit
      obtain ⟨hen, hcl, hapi, husr⟩ := (shouldForward_iff h cfg r).mp hfwd
      by_cases hres : resolvedResourceId h cfg r = ""
      · simp [hres] at hemit
      · rw [if_neg hres] at hemit
        replace hemit := Option.some.inj hemit
        subst hemit
        refine ⟨?_, ?_, ?_, rfl, ?_⟩
        · simp [buildResourceLogsEndpoint, hb, hu, jsTrim_idem, resolvedResourceId,
            jsTrim_pickResourceId]
        · cases hak : cfg.apiKey with
          | none =>
            rw [hak] at hapi
            simp [truthyOpt] at hapi
          | some k =>
            rw [hak] at hapi
            simp only [truthyOpt, ne_eq, decide_eq_true_eq] at hapi
            exact ⟨k, rfl, hapi, by simp [jsOrD, hak, hapi]⟩
        · exact ⟨by simp [husr], husr⟩
        · simp [hlvl]

/-- Closed witness for spec_C9 at the shared-resource scenario. -/
theorem spec_C9_witness :
    callW.url = uW.scheme ++ "://" ++ uW.host ++ resolvedPortalPfx cfgW ++ "/u/"
        ++ encodeURIComponentB (jsTrim (jsOrD cfgW.resourceOwnerUsername (jsOrD cfgW.username "")))
        ++ "/resources/" ++ encodeURIComponentB (resolvedResourceId hW cfgW rW) ++ "/logs/" ∧
    (∃ k, cfgW.apiKey = some k ∧ k ≠ "" ∧ callW.apiKeyHeader = k) ∧
    (callW.userHeader = cfgW.username ∧ truthyOpt cfgW.username = true) ∧
    callW.payloadResourceId = resolvedResourceId hW cfgW rW ∧
    callW.payloadLevel = jsToLower rW.levelname :=
  spec_C9 cfgW hW rW callW uW (by decide) (by decide) (by decide) (by decide)

end Alshival

namespace Alshival

theorem splitOnChar_cons (sep c : Char) (l : List Char) :
    splitOnChar sep (c :: l) =
      match splitOnChar sep l with
      | [] => [[c]]
      | cur :: rest => if c = sep then [] :: cur :: rest else (c :: cur) :: rest := rfl

theorem splitOnChar_no_sep (sep : Char) (seg : List Char) (h : ∀ c ∈ seg, c ≠ sep) :
    splitOnChar sep seg = [seg] := by
  induction seg with
  | nil => rfl
  | cons a t ih =>
    rw [splitOnChar_cons, ih (fun c hc => h c (by simp [hc]))]
    simp [h a (by simp)]

end Alshival

namespace Alshival

end Alshival

namespace Alshival

end Alshival

namespace Alshival

end Alshival

namespace Alshival

theorem mem_of_getLast?_eq {α : Type} {l : List α} {a : α} (h : l.getLast? = some a) :
    a ∈ l := by
  have hm : a ∈ l.getLast? := Option.mem_def.mpr h
  obtain ⟨hne, heq⟩ := List.mem_getLast?_eq_getLast hm
  rw [heq]
  exact List.getLast_mem hne

theorem stripTS_no_slash (s : String) (h : ∀ c ∈ s.data, c ≠ '/') (hne : s ≠ "") :
    stripTrailingSlash s = s := by
  unfold stripTrailingSlash
  cases hl : s.data.getLast? with
  | none => rfl
  | some c =>
    have hc : c ≠ '/' := h c (mem_of_getLast?_eq hl)
    dsimp only
    rw [if_neg hc]

end Alshival

namespace Alshival

end Alshival

namespace Alshival

end Alshival

namespace Alshival

end Alshival
